import Mathlib

/-!
Shallow embedding of the knox-auditor core (knox-core crate) in Lean 4.

The pattern-matching engine (`matcher.rs`) and the file/directory scanner
(`scanner.rs`) are translated as executable Lean definitions.  The external
regex crate is abstracted as a `RegexEngine` (a compile function and a
first-match finder on compiled values); the filesystem and the walkdir crate
are abstracted as a `FileSystem` record of effectful primitives, passed
explicitly.  Mutable state (`&mut self`) is modelled by explicit state
passing: each operation returns its result together with the updated value.
-/

namespace Knox

/-- `SecurityPattern` from matcher.rs: name, regex text, severity, category,
description. -/
structure SecurityPattern where
  name : String
  pattern : String
  severity : String
  category : String
  description : String
deriving DecidableEq

/-- `Match` from matcher.rs: one located occurrence of a pattern. -/
structure Match where
  line_number : Nat
  column : Nat
  pattern_name : String
  severity : String
  matched_text : String
  category : String
deriving DecidableEq

/-- Abstraction of the external regex crate: a type of compiled regexes,
a fallible compiler, and a finder returning the first match on a string as
(start offset, matched substring), or none when the regex has no match. -/
structure RegexEngine where
  R : Type
  compile : String → Option R
  find : R → String → Option (Nat × String)

/-- `PatternMatcher` from matcher.rs: the pattern registry plus the
regex cache (`HashMap<String, Regex>`, modelled as an association list whose
lookup takes the most recently inserted binding, matching HashMap get
semantics under the code's insert-only-if-absent discipline). -/
structure PatternMatcher (E : RegexEngine) where
  patterns : List SecurityPattern
  regex_cache : List (String × E.R)

/-- The 10 default patterns of `PatternMatcher::default_patterns`, verbatim. -/
def defaultPatterns : List SecurityPattern :=
  [ { name := "hardcoded_api_key"
    , pattern := "(?i)(api[_-]?key|apikey)\\s*[:=]\\s*[\"\x27]([a-zA-Z0-9_\\-]\x7b20,\x7d)[\"\x27]"
    , severity := "critical", category := "secrets"
    , description := "Hardcoded API key detected" }
  , { name := "hardcoded_password"
    , pattern := "(?i)(password|passwd|pwd)\\s*[:=]\\s*[\"\x27]([^\"\x27]\x7b8,\x7d)[\"\x27]"
    , severity := "critical", category := "secrets"
    , description := "Hardcoded password detected" }
  , { name := "sql_injection"
    , pattern := "(?i)(execute|query)\\s*\\(\\s*[\"\x27].*\\+.*[\"\x27]"
    , severity := "high", category := "injection"
    , description := "Potential SQL injection vulnerability" }
  , { name := "command_injection"
    , pattern := "(?i)(os\\.system|subprocess\\.call|exec)\\s*\\("
    , severity := "high", category := "injection"
    , description := "Potential command injection risk" }
  , { name := "weak_crypto_md5"
    , pattern := "(?i)(md5|hashlib\\.md5)\\s*\\("
    , severity := "medium", category := "crypto"
    , description := "Weak cryptographic algorithm MD5" }
  , { name := "weak_crypto_sha1"
    , pattern := "(?i)(sha1|hashlib\\.sha1)\\s*\\("
    , severity := "medium", category := "crypto"
    , description := "Weak cryptographic algorithm SHA1" }
  , { name := "insecure_deserialization"
    , pattern := "(?i)(pickle\\.loads?|yaml\\.load)\\s*\\("
    , severity := "high", category := "deserialization"
    , description := "Insecure deserialization detected" }
  , { name := "xss_vulnerability"
    , pattern := "(?i)(innerHTML|dangerouslySetInnerHTML|document\\.write)\\s*="
    , severity := "high", category := "xss"
    , description := "Potential XSS vulnerability" }
  , { name := "debug_mode"
    , pattern := "(?i)(DEBUG|debug)\\s*=\\s*(True|true|1)"
    , severity := "medium", category := "config"
    , description := "Debug mode enabled" }
  , { name := "ssl_verification_disabled"
    , pattern := "(?i)verify\\s*=\\s*(False|false|0)"
    , severity := "high", category := "crypto"
    , description := "SSL certificate verification disabled" }
  ]

/-- `PatternMatcher::new`: default patterns, empty cache. -/
def PatternMatcher.new (E : RegexEngine) : PatternMatcher E :=
  ⟨defaultPatterns, []⟩

/-- `PatternMatcher::add_pattern`: append to the registry. -/
def PatternMatcher.add_pattern (E : RegexEngine) (m : PatternMatcher E)
    (p : SecurityPattern) : PatternMatcher E :=
  ⟨m.patterns ++ [p], m.regex_cache⟩

/-- `PatternMatcher::pattern_count`. -/
def PatternMatcher.pattern_count (E : RegexEngine) (m : PatternMatcher E) : Nat :=
  m.patterns.length

/-- `PatternMatcher::get_or_compile_regex`: if the text is not cached, try to
compile it; on success insert into the cache, on failure return none leaving
the cache unchanged; finally read the cache. -/
def getOrCompileRegex (E : RegexEngine) (m : PatternMatcher E) (p : String) :
    Option E.R × PatternMatcher E :=
  if (m.regex_cache.lookup p).isSome then (m.regex_cache.lookup p, m)
  else
    match E.compile p with
    | some r =>
        let m2 : PatternMatcher E := ⟨m.patterns, (p, r) :: m.regex_cache⟩
        (m2.regex_cache.lookup p, m2)
    | none => (none, m)

/-- Loop body of `PatternMatcher::match_line`: walk the registered patterns in
registration order, threading the cache; a pattern whose compiled form has a
match on the line emits one Match at the first occurrence. -/
def matchLineAux (E : RegexEngine) :
    List SecurityPattern → PatternMatcher E → String → Nat →
      List Match × PatternMatcher E
  | [], m, _, _ => ([], m)
  | p :: ps, m, line, ln =>
      let step := getOrCompileRegex E m p.pattern
      let here : List Match :=
        match step.1 with
        | some r =>
            match E.find r line with
            | some c =>
                [ { line_number := ln, column := c.1, pattern_name := p.name
                  , severity := p.severity, matched_text := c.2
                  , category := p.category } ]
            | none => []
        | none => []
      let rest := matchLineAux E ps step.2 line ln
      (here ++ rest.1, rest.2)

/-- `PatternMatcher::match_line`. -/
def matchLine (E : RegexEngine) (m : PatternMatcher E) (line : String)
    (line_number : Nat) : List Match × PatternMatcher E :=
  matchLineAux E m.patterns m line line_number

/-- Helper for `rustLines`: walks the characters, accumulating the current
line reversed; on a line feed, emits the line with one carriage return
stripped from its end; at the end of input, emits the final unterminated line
only if nonempty (and without stripping a bare carriage return). -/
def rustLinesAux : List Char → List Char → List String
  | [], acc => if acc.isEmpty then [] else [String.mk acc.reverse]
  | c :: cs, acc =>
      if c = '\n' then
        let acc2 := match acc with
          | '\r' :: acc1 => acc1
          | _ => acc
        String.mk acc2.reverse :: rustLinesAux cs []
      else rustLinesAux cs (c :: acc)

/-- Rust `str::lines`: lines are split at a line feed or at a carriage return
followed by a line feed; the final line ending is optional (no trailing empty
line for a final newline). -/
def rustLines (s : String) : List String :=
  rustLinesAux s.data []

/-- Loop body of `PatternMatcher::match_content`: match each logical line with
its 1-based number, threading the matcher state, concatenating results. -/
def matchContentAux (E : RegexEngine) :
    List String → Nat → PatternMatcher E → List Match × PatternMatcher E
  | [], _, m => ([], m)
  | l :: ls, i, m =>
      let here := matchLine E m l (i + 1)
      let rest := matchContentAux E ls (i + 1) here.2
      (here.1 ++ rest.1, rest.2)

/-- `PatternMatcher::match_content`. -/
def matchContent (E : RegexEngine) (m : PatternMatcher E) (content : String) :
    List Match × PatternMatcher E :=
  matchContentAux E (rustLines content) 0 m

/-- First index (0-based) at which `needle` occurs in the remaining haystack,
offset by the running index. -/
def firstIndexOfAux (needle : List Char) : List Char → Nat → Option Nat
  | [], _ => none
  | hay@(_ :: rest), i =>
      if needle.isPrefixOf hay then some i
      else firstIndexOfAux needle rest (i + 1)

/-- First index of a nonempty `needle` inside `hay`, if any. -/
def firstIndexOf (needle hay : List Char) : Option Nat :=
  firstIndexOfAux needle hay 0

/-- A concrete executable engine used to exercise the model on closed inputs:
a "compiled regex" is a plain needle, compilation fails exactly on the empty
text, and the finder returns the first substring occurrence. -/
@[reducible] def testEngine : RegexEngine where
  R := String
  compile s := if s = "" then none else some s
  find r line := (firstIndexOf r.data line.data).map fun i => (i, r)

example : rustLines "a\nb\n" = ["a", "b"] := by decide
example : rustLines "" = [] := by decide
example : rustLines "a\r\nb" = ["a", "b"] := by decide
example : rustLines "a\r" = ["a\r"] := by decide
example : testEngine.find "md5" "x = md5(p)" = some (4, "md5") := by decide

/-- The first match of a pattern on a line, going straight through the
compiler (no cache): the spec-side notion of "the pattern has a match on the
line" with its start offset and matched substring. -/
def firstPatternMatch (E : RegexEngine) (p : SecurityPattern) (line : String) :
    Option (Nat × String) :=
  match E.compile p.pattern with
  | some r => E.find r line
  | none => none

/-- Spec-side description of matching one line: one Match per registered
pattern that has at least one match on the line, in registration order,
carrying the first occurrence. -/
def matchLineSpec (E : RegexEngine) (ps : List SecurityPattern) (line : String)
    (ln : Nat) : List Match :=
  ps.filterMap fun p =>
    (firstPatternMatch E p line).map fun c =>
      { line_number := ln, column := c.1, pattern_name := p.name
      , severity := p.severity, matched_text := c.2, category := p.category }

/-- Spec-side description of matching content: the lines in order, numbered
from 1, each contributing its `matchLineSpec` block. -/
def matchContentSpec (E : RegexEngine) (ps : List SecurityPattern)
    (content : String) : List Match :=
  ((rustLines content).enum.map fun q => matchLineSpec E ps q.2 (q.1 + 1)).flatten

/-- A regex cache is coherent when every stored binding is the successful
compilation of its key.  The empty cache is coherent, and every cache the
program builds stays coherent. -/
def cacheCoherent (E : RegexEngine) (cache : List (String × E.R)) : Prop :=
  ∀ p r, (p, r) ∈ cache → E.compile p = some r

theorem cacheCoherent_nil (E : RegexEngine) : cacheCoherent E [] := by
  intro p r h
  exact absurd h (List.not_mem_nil _)

theorem lookup_mem {α β : Type _} [BEq α] [LawfulBEq α] (l : List (α × β))
    (p : α) (r : β) (h : l.lookup p = some r) : (p, r) ∈ l := by
  induction l with
  | nil => simp [List.lookup] at h
  | cons hd tl ih =>
      obtain ⟨q, s⟩ := hd
      rw [List.lookup] at h
      cases hq : (p == q) with
      | true =>
          rw [hq] at h
          have hpq : p = q := eq_of_beq hq
          have hsr : s = r := by
            simpa using h
          subst hpq
          subst hsr
          exact List.mem_cons_self _ _
      | false =>
          rw [hq] at h
          exact List.mem_cons_of_mem _ (ih h)

theorem lookup_compile (E : RegexEngine) (cache : List (String × E.R))
    (hc : cacheCoherent E cache) (p : String) (r : E.R)
    (h : cache.lookup p = some r) : E.compile p = some r :=
  hc p r (lookup_mem cache p r h)

theorem getOrCompileRegex_fst (E : RegexEngine) (m : PatternMatcher E)
    (p : String) (hc : cacheCoherent E m.regex_cache) :
    (getOrCompileRegex E m p).1 = E.compile p := by
  unfold getOrCompileRegex
  cases hl : m.regex_cache.lookup p with
  | some r =>
      simp only [hl, Option.isSome_some, if_pos]
      exact (lookup_compile E m.regex_cache hc p r hl).symm
  | none =>
      simp only [hl, Option.isSome_none, Bool.false_eq_true, if_false]
      cases hcp : E.compile p with
      | some r => simp [List.lookup]
      | none => simp

theorem getOrCompileRegex_patterns (E : RegexEngine) (m : PatternMatcher E)
    (p : String) : (getOrCompileRegex E m p).2.patterns = m.patterns := by
  unfold getOrCompileRegex
  cases hl : (m.regex_cache.lookup p).isSome with
  | true => simp [hl]
  | false =>
      simp only [hl, Bool.false_eq_true, if_false]
      cases E.compile p <;> simp

theorem getOrCompileRegex_cache (E : RegexEngine) (m : PatternMatcher E)
    (p : String) (q : String) (r : E.R)
    (h : (q, r) ∈ (getOrCompileRegex E m p).2.regex_cache) :
    (q, r) ∈ m.regex_cache ∨ (q = p ∧ E.compile q = some r) := by
  unfold getOrCompileRegex at h
  cases hl : (m.regex_cache.lookup p).isSome with
  | true =>
      simp only [hl, if_pos] at h
      exact Or.inl h
  | false =>
      simp only [hl, Bool.false_eq_true, if_false] at h
      cases hcp : E.compile p with
      | some r2 =>
          simp only [hcp, List.mem_cons] at h
          rcases h with h | h
          · obtain ⟨h1, h2⟩ := Prod.mk.injEq q r p r2 ▸ h
            exact Or.inr ⟨h1, by rw [h1, hcp, h2]⟩
          · exact Or.inl h
      | none =>
          simp only [hcp] at h
          exact Or.inl h

theorem getOrCompileRegex_coherent (E : RegexEngine) (m : PatternMatcher E)
    (p : String) (hc : cacheCoherent E m.regex_cache) :
    cacheCoherent E (getOrCompileRegex E m p).2.regex_cache := by
  intro q r h
  rcases getOrCompileRegex_cache E m p q r h with h | ⟨_, h2⟩
  · exact hc q r h
  · exact h2

theorem matchLineAux_fst (E : RegexEngine) (ps : List SecurityPattern)
    (m : PatternMatcher E) (line : String) (ln : Nat)
    (hc : cacheCoherent E m.regex_cache) :
    (matchLineAux E ps m line ln).1 = matchLineSpec E ps line ln := by
  induction ps generalizing m with
  | nil => simp [matchLineAux, matchLineSpec]
  | cons p ps ih =>
      rw [matchLineAux]
      rw [matchLineSpec, List.filterMap_cons]
      have h1 := getOrCompileRegex_fst E m p.pattern hc
      have h2 := getOrCompileRegex_coherent E m p.pattern hc
      rw [firstPatternMatch]
      cases hcp : E.compile p.pattern with
      | some r =>
          rw [h1, hcp]
          cases hf : E.find r line with
          | some c =>
              simp only [hf, Option.map_some]
              rw [← matchLineSpec, ← ih _ h2]
              simp
          | none =>
              simp only [hf, Option.map_none]
              rw [← matchLineSpec, ← ih _ h2]
              simp
      | none =>
          rw [h1, hcp]
          simp only [Option.map_none]
          rw [← matchLineSpec, ← ih _ h2]
          simp

theorem matchLineAux_patterns (E : RegexEngine) (ps : List SecurityPattern)
    (m : PatternMatcher E) (line : String) (ln : Nat) :
    (matchLineAux E ps m line ln).2.patterns = m.patterns := by
  induction ps generalizing m with
  | nil => rfl
  | cons p ps ih =>
      rw [matchLineAux]
      rw [ih]
      exact getOrCompileRegex_patterns E m p.pattern

theorem matchLineAux_cache (E : RegexEngine) (ps : List SecurityPattern)
    (m : PatternMatcher E) (line : String) (ln : Nat) (q : String) (r : E.R)
    (h : (q, r) ∈ (matchLineAux E ps m line ln).2.regex_cache) :
    (q, r) ∈ m.regex_cache ∨
      (q ∈ ps.map SecurityPattern.pattern ∧ E.compile q = some r) := by
  induction ps generalizing m with
  | nil => exact Or.inl h
  | cons p ps ih =>
      rw [matchLineAux] at h
      rcases ih _ h with h2 | ⟨h2, h3⟩
      · rcases getOrCompileRegex_cache E m p.pattern q r h2 with h3 | ⟨h3, h4⟩
        · exact Or.inl h3
        · exact Or.inr ⟨by simp [h3], h4⟩
      · exact Or.inr ⟨by simp [h2], h3⟩

theorem matchLineAux_coherent (E : RegexEngine) (ps : List SecurityPattern)
    (m : PatternMatcher E) (line : String) (ln : Nat)
    (hc : cacheCoherent E m.regex_cache) :
    cacheCoherent E (matchLineAux E ps m line ln).2.regex_cache := by
  intro q r h
  rcases matchLineAux_cache E ps m line ln q r h with h | ⟨_, h2⟩
  · exact hc q r h
  · exact h2

theorem matchLine_fst (E : RegexEngine) (m : PatternMatcher E) (line : String)
    (ln : Nat) (hc : cacheCoherent E m.regex_cache) :
    (matchLine E m line ln).1 = matchLineSpec E m.patterns line ln :=
  matchLineAux_fst E m.patterns m line ln hc

theorem matchLine_patterns (E : RegexEngine) (m : PatternMatcher E)
    (line : String) (ln : Nat) :
    (matchLine E m line ln).2.patterns = m.patterns :=
  matchLineAux_patterns E m.patterns m line ln

theorem matchLine_coherent (E : RegexEngine) (m : PatternMatcher E)
    (line : String) (ln : Nat) (hc : cacheCoherent E m.regex_cache) :
    cacheCoherent E (matchLine E m line ln).2.regex_cache :=
  matchLineAux_coherent E m.patterns m line ln hc

theorem matchContentAux_fst (E : RegexEngine) (ls : List String) (i : Nat)
    (m : PatternMatcher E) (hc : cacheCoherent E m.regex_cache) :
    (matchContentAux E ls i m).1 =
      ((ls.enumFrom i).map fun q => matchLineSpec E m.patterns q.2 (q.1 + 1)).flatten := by
  induction ls generalizing i m with
  | nil => simp [matchContentAux]
  | cons l ls ih =>
      rw [matchContentAux]
      have hpat := matchLine_patterns E m l (i + 1)
      have hcoh := matchLine_coherent E m l (i + 1) hc
      rw [List.enumFrom_cons]
      simp only [List.map_cons, List.flatten_cons]
      rw [matchLine_fst E m l (i + 1) hc, ih (i + 1) _ hcoh, hpat]

theorem matchContentAux_patterns (E : RegexEngine) (ls : List String) (i : Nat)
    (m : PatternMatcher E) :
    (matchContentAux E ls i m).2.patterns = m.patterns := by
  induction ls generalizing i m with
  | nil => rfl
  | cons l ls ih =>
      rw [matchContentAux]
      rw [ih]
      exact matchLine_patterns E m l (i + 1)

theorem matchContentAux_cache (E : RegexEngine) (ls : List String) (i : Nat)
    (m : PatternMatcher E) (q : String) (r : E.R)
    (h : (q, r) ∈ (matchContentAux E ls i m).2.regex_cache) :
    (q, r) ∈ m.regex_cache ∨
      (q ∈ m.patterns.map SecurityPattern.pattern ∧ E.compile q = some r) := by
  induction ls generalizing i m with
  | nil => exact Or.inl h
  | cons l ls ih =>
      rw [matchContentAux] at h
      rcases ih (i + 1) _ h with h2 | ⟨h2, h3⟩
      · exact matchLineAux_cache E m.patterns m l (i + 1) q r h2
      · rw [matchLine_patterns E m l (i + 1)] at h2
        exact Or.inr ⟨h2, h3⟩

theorem matchContentAux_coherent (E : RegexEngine) (ls : List String) (i : Nat)
    (m : PatternMatcher E) (hc : cacheCoherent E m.regex_cache) :
    cacheCoherent E (matchContentAux E ls i m).2.regex_cache := by
  intro q r h
  rcases matchContentAux_cache E ls i m q r h with h | ⟨_, h2⟩
  · exact hc q r h
  · exact h2

theorem matchContent_fst (E : RegexEngine) (m : PatternMatcher E)
    (content : String) (hc : cacheCoherent E m.regex_cache) :
    (matchContent E m content).1 = matchContentSpec E m.patterns content := by
  rw [matchContent, matchContentSpec, matchContentAux_fst E _ 0 m hc]
  rfl

theorem matchContent_patterns (E : RegexEngine) (m : PatternMatcher E)
    (content : String) :
    (matchContent E m content).2.patterns = m.patterns :=
  matchContentAux_patterns E (rustLines content) 0 m

theorem matchContent_coherent (E : RegexEngine) (m : PatternMatcher E)
    (content : String) (hc : cacheCoherent E m.regex_cache) :
    cacheCoherent E (matchContent E m content).2.regex_cache :=
  matchContentAux_coherent E (rustLines content) 0 m hc

theorem matchLineSpec_line_number (E : RegexEngine) (ps : List SecurityPattern)
    (line : String) (ln : Nat) (a : Match) (h : a ∈ matchLineSpec E ps line ln) :
    a.line_number = ln := by
  rw [matchLineSpec] at h
  rcases List.mem_filterMap.mp h with ⟨p, _, hp⟩
  rcases Option.map_eq_some'.mp hp with ⟨c, _, hfc⟩
  rw [← hfc]

theorem blocks_line_lb (E : RegexEngine) (ps : List SecurityPattern)
    (ls : List String) (i : Nat) (a : Match)
    (h : a ∈ ((ls.enumFrom i).map fun q => matchLineSpec E ps q.2 (q.1 + 1)).flatten) :
    i + 1 ≤ a.line_number := by
  induction ls generalizing i with
  | nil => simp at h
  | cons l ls ih =>
      rw [List.enumFrom_cons] at h
      simp only [List.map_cons, List.flatten_cons, List.mem_append] at h
      rcases h with h | h
      · rw [matchLineSpec_line_number E ps l (i + 1) a h]
      · exact le_trans (Nat.le_succ _) (ih (i + 1) h)

theorem blocks_sorted (E : RegexEngine) (ps : List SecurityPattern)
    (ls : List String) (i : Nat) :
    List.Pairwise (fun a b : Match => a.line_number ≤ b.line_number)
      (((ls.enumFrom i).map fun q => matchLineSpec E ps q.2 (q.1 + 1)).flatten) := by
  induction ls generalizing i with
  | nil => simp
  | cons l ls ih =>
      rw [List.enumFrom_cons]
      simp only [List.map_cons, List.flatten_cons]
      rw [List.pairwise_append]
      refine ⟨?_, ih (i + 1), ?_⟩
      · apply List.pairwise_of_forall_mem_list
        intro a ha b hb
        rw [matchLineSpec_line_number E ps l (i + 1) a ha,
          matchLineSpec_line_number E ps l (i + 1) b hb]
      · intro a ha b hb
        rw [matchLineSpec_line_number E ps l (i + 1) a ha]
        exact le_trans (Nat.le_succ _) (blocks_line_lb E ps ls (i + 1) b hb)

theorem matchContentSpec_sorted (E : RegexEngine) (ps : List SecurityPattern)
    (content : String) :
    List.Pairwise (fun a b : Match => a.line_number ≤ b.line_number)
      (matchContentSpec E ps content) :=
  blocks_sorted E ps (rustLines content) 0

/-- C1: for every content string, `match_content` splits the content into
logical lines (1-based, no trailing empty line for a final newline) and
returns exactly one Match per (line, pattern) pair for which the pattern has
at least one match on that line — carrying the start offset and matched
substring of the pattern's first match on the line — in line order and, within
a line, pattern registration order.  `matchContentSpec` is, definitionally,
that description: lines in order, each contributing one Match per registered
pattern (registration order) whose first match exists; the second conjunct
makes the line ordering explicit. -/
theorem matchContent_correct (E : RegexEngine) (m : PatternMatcher E)
    (content : String) (hc : cacheCoherent E m.regex_cache) :
    (matchContent E m content).1 = matchContentSpec E m.patterns content ∧
      List.Pairwise (fun a b : Match => a.line_number ≤ b.line_number)
        (matchContent E m content).1 := by
  have h := matchContent_fst E m content hc
  exact ⟨h, h ▸ matchContentSpec_sorted E m.patterns content⟩

/-- Witness for C1 at a closed input: a two-line content whose second line
matches the single registered pattern of a concrete matcher with empty
cache. -/
theorem matchContent_correct_witness :
    (matchContent testEngine ⟨[⟨"k", "KEY", "critical", "secrets", "d"⟩], []⟩
        "a\nKEY = 1").1 =
      matchContentSpec testEngine [⟨"k", "KEY", "critical", "secrets", "d"⟩]
        "a\nKEY = 1" ∧
      List.Pairwise (fun a b : Match => a.line_number ≤ b.line_number)
        (matchContent testEngine ⟨[⟨"k", "KEY", "critical", "secrets", "d"⟩], []⟩
          "a\nKEY = 1").1 :=
  matchContent_correct testEngine ⟨[⟨"k", "KEY", "critical", "secrets", "d"⟩], []⟩
    "a\nKEY = 1" (cacheCoherent_nil testEngine)

example :
    (matchContent testEngine ⟨[⟨"k", "KEY", "critical", "secrets", "d"⟩], []⟩
        "a\nKEY = 1").1 =
      [{ line_number := 2, column := 0, pattern_name := "k"
       , severity := "critical", matched_text := "KEY", category := "secrets" }] := by
  decide

theorem matchLineSpec_skip (E : RegexEngine) (l1 l2 : List SecurityPattern)
    (p : SecurityPattern) (line : String) (ln : Nat)
    (hbad : E.compile p.pattern = none) :
    matchLineSpec E (l1 ++ p :: l2) line ln = matchLineSpec E (l1 ++ l2) line ln := by
  rw [matchLineSpec, matchLineSpec, List.filterMap_append, List.filterMap_append,
    List.filterMap_cons]
  have : firstPatternMatch E p line = none := by
    rw [firstPatternMatch, hbad]
  rw [this]
  simp

theorem coherent_lookup_none (E : RegexEngine) (cache : List (String × E.R))
    (hc : cacheCoherent E cache) (p : String) (hbad : E.compile p = none) :
    cache.lookup p = none := by
  cases hl : cache.lookup p with
  | none => rfl
  | some r =>
      have := hc p r (lookup_mem cache p r hl)
      rw [hbad] at this
      exact absurd this (by simp)

/-- C3: a registered pattern whose text fails to compile contributes zero
matches on every `match_line`/`match_content` call — the result is the one the
registry without that pattern would give, so the remaining patterns are
applied normally and no call aborts — and the failed compilation is never
cached: after either call the cache still has no entry for the failing text,
so it is retried on every subsequent call. -/
theorem invalid_pattern_skipped (E : RegexEngine) (m : PatternMatcher E)
    (line content : String) (ln : Nat) (l1 l2 : List SecurityPattern)
    (p : SecurityPattern) (hp : m.patterns = l1 ++ p :: l2)
    (hbad : E.compile p.pattern = none)
    (hc : cacheCoherent E m.regex_cache) :
    (matchLine E m line ln).1 =
        (matchLine E ⟨l1 ++ l2, m.regex_cache⟩ line ln).1 ∧
      (matchContent E m content).1 =
        (matchContent E ⟨l1 ++ l2, m.regex_cache⟩ content).1 ∧
      (matchLine E m line ln).2.regex_cache.lookup p.pattern = none ∧
      (matchContent E m content).2.regex_cache.lookup p.pattern = none := by
  refine ⟨?_, ?_, ?_, ?_⟩
  · rw [matchLine_fst E m line ln hc,
      matchLine_fst E ⟨l1 ++ l2, m.regex_cache⟩ line ln hc, hp]
    exact matchLineSpec_skip E l1 l2 p line ln hbad
  · rw [matchContent_fst E m content hc,
      matchContent_fst E ⟨l1 ++ l2, m.regex_cache⟩ content hc, hp]
    rw [matchContentSpec, matchContentSpec]
    congr 1
    apply List.map_congr_left
    intro q _
    exact matchLineSpec_skip E l1 l2 p q.2 (q.1 + 1) hbad
  · exact coherent_lookup_none E _ (matchLine_coherent E m line ln hc) p.pattern hbad
  · exact coherent_lookup_none E _ (matchContent_coherent E m content hc) p.pattern hbad

/-- Witness for C3 at a closed input: a matcher whose middle pattern has the
empty text, which the concrete engine refuses to compile. -/
theorem invalid_pattern_skipped_witness :
    (matchLine testEngine ⟨[⟨"g", "md5", "medium", "crypto", "d"⟩,
        ⟨"bad", "", "low", "x", "d"⟩, ⟨"h", "KEY", "critical", "secrets", "d"⟩], []⟩
        "md5(KEY)" 1).1 =
      (matchLine testEngine ⟨[⟨"g", "md5", "medium", "crypto", "d"⟩,
          ⟨"h", "KEY", "critical", "secrets", "d"⟩], []⟩ "md5(KEY)" 1).1 ∧
    (matchContent testEngine ⟨[⟨"g", "md5", "medium", "crypto", "d"⟩,
        ⟨"bad", "", "low", "x", "d"⟩, ⟨"h", "KEY", "critical", "secrets", "d"⟩], []⟩
        "md5(KEY)").1 =
      (matchContent testEngine ⟨[⟨"g", "md5", "medium", "crypto", "d"⟩,
          ⟨"h", "KEY", "critical", "secrets", "d"⟩], []⟩ "md5(KEY)").1 ∧
    (matchLine testEngine ⟨[⟨"g", "md5", "medium", "crypto", "d"⟩,
        ⟨"bad", "", "low", "x", "d"⟩, ⟨"h", "KEY", "critical", "secrets", "d"⟩], []⟩
        "md5(KEY)" 1).2.regex_cache.lookup "" = none ∧
    (matchContent testEngine ⟨[⟨"g", "md5", "medium", "crypto", "d"⟩,
        ⟨"bad", "", "low", "x", "d"⟩, ⟨"h", "KEY", "critical", "secrets", "d"⟩], []⟩
        "md5(KEY)").2.regex_cache.lookup "" = none :=
  invalid_pattern_skipped testEngine
    ⟨[⟨"g", "md5", "medium", "crypto", "d"⟩, ⟨"bad", "", "low", "x", "d"⟩,
      ⟨"h", "KEY", "critical", "secrets", "d"⟩], []⟩
    "md5(KEY)" "md5(KEY)" 1 [⟨"g", "md5", "medium", "crypto", "d"⟩]
    [⟨"h", "KEY", "critical", "secrets", "d"⟩] ⟨"bad", "", "low", "x", "d"⟩
    rfl rfl (cacheCoherent_nil testEngine)

/-- C10: `match_line` and `match_content` leave the pattern registry (and so
`pattern_count`) unchanged; the only state they may modify is the regex cache,
which gains only entries keyed by registered pattern texts that compile
successfully. -/
theorem matcher_frame (E : RegexEngine) (m : PatternMatcher E)
    (line content : String) (ln : Nat) (q : String) (r : E.R) :
    (matchLine E m line ln).2.patterns = m.patterns ∧
      (matchContent E m content).2.patterns = m.patterns ∧
      PatternMatcher.pattern_count E (matchLine E m line ln).2 =
        PatternMatcher.pattern_count E m ∧
      PatternMatcher.pattern_count E (matchContent E m content).2 =
        PatternMatcher.pattern_count E m ∧
      ((q, r) ∈ (matchLine E m line ln).2.regex_cache →
        (q, r) ∈ m.regex_cache ∨
          (q ∈ m.patterns.map SecurityPattern.pattern ∧ E.compile q = some r)) ∧
      ((q, r) ∈ (matchContent E m content).2.regex_cache →
        (q, r) ∈ m.regex_cache ∨
          (q ∈ m.patterns.map SecurityPattern.pattern ∧ E.compile q = some r)) := by
  refine ⟨matchLine_patterns E m line ln, matchContent_patterns E m content, ?_, ?_, ?_, ?_⟩
  · rw [PatternMatcher.pattern_count, PatternMatcher.pattern_count,
      matchLine_patterns E m line ln]
  · rw [PatternMatcher.pattern_count, PatternMatcher.pattern_count,
      matchContent_patterns E m content]
  · exact matchLineAux_cache E m.patterns m line ln q r
  · exact matchContentAux_cache E (rustLines content) 0 m q r

/-- Witness for C10 at a closed input: after one `match_line` call on a
concrete matcher, the cache entry for the registered text "md5" is accounted
for by the right disjunct. -/
theorem matcher_frame_witness :
    (matchLine testEngine ⟨[⟨"g", "md5", "medium", "crypto", "d"⟩], []⟩ "x" 1).2.patterns =
        [⟨"g", "md5", "medium", "crypto", "d"⟩] ∧
      (matchContent testEngine ⟨[⟨"g", "md5", "medium", "crypto", "d"⟩], []⟩ "x").2.patterns =
        [⟨"g", "md5", "medium", "crypto", "d"⟩] ∧
      PatternMatcher.pattern_count testEngine
          (matchLine testEngine ⟨[⟨"g", "md5", "medium", "crypto", "d"⟩], []⟩ "x" 1).2 =
        PatternMatcher.pattern_count testEngine ⟨[⟨"g", "md5", "medium", "crypto", "d"⟩], []⟩ ∧
      PatternMatcher.pattern_count testEngine
          (matchContent testEngine ⟨[⟨"g", "md5", "medium", "crypto", "d"⟩], []⟩ "x").2 =
        PatternMatcher.pattern_count testEngine ⟨[⟨"g", "md5", "medium", "crypto", "d"⟩], []⟩ ∧
      (("md5", "md5") ∈ ([] : List (String × String)) ∨
        ("md5" ∈ [(⟨"g", "md5", "medium", "crypto", "d"⟩ : SecurityPattern)].map
            SecurityPattern.pattern ∧
          testEngine.compile "md5" = some "md5")) ∧
      (("md5", "md5") ∈ ([] : List (String × String)) ∨
        ("md5" ∈ [(⟨"g", "md5", "medium", "crypto", "d"⟩ : SecurityPattern)].map
            SecurityPattern.pattern ∧
          testEngine.compile "md5" = some "md5")) := by
  have h := matcher_frame testEngine ⟨[⟨"g", "md5", "medium", "crypto", "d"⟩], []⟩
    "x" "x" 1 "md5" "md5"
  exact ⟨h.1, h.2.1, h.2.2.1, h.2.2.2.1,
    h.2.2.2.2.1 (by decide), h.2.2.2.2.2 (by decide)⟩

/-- Error taxonomy of the scanner boundary (`PyFileNotFoundError` /
`PyIOError` in scanner.rs), carrying the formatted message. -/
inductive ScanError where
  | NotFound : String → ScanError
  | IOError : String → ScanError
deriving DecidableEq

/-- `ScanResult` from scanner.rs. -/
structure ScanResult where
  file_path : String
  «matches» : List Match
  scan_time_ms : Nat
  file_size : Nat
deriving DecidableEq

/-- One entry produced by the walkdir traversal: its path, whether it is a
regular file, and its extension (`Path::extension`, none when absent). -/
structure DirEntry where
  path : String
  isFile : Bool
  extension : Option String
deriving DecidableEq

/-- Abstraction of the filesystem effects used by scanner.rs: existence
check, metadata fetch (file size), memory-mapped read (whose failure also
covers mapping errors and invalid UTF-8), buffered read, and the walkdir
enumeration for a root and optional max depth (entries can individually
fail, as walkdir yields `Result` items). -/
structure FileSystem where
  pathExists : String → Bool
  metadataSize : String → Except String Nat
  mmapRead : String → Except String String
  readToString : String → Except String String
  walk : String → Option Nat → List (Except String DirEntry)

/-- `FastScanner` from scanner.rs: a matcher, the extension allow-list and the
maximum file size in bytes. -/
structure FastScanner (E : RegexEngine) where
  matcher : PatternMatcher E
  extensions : List String
  max_file_size : Nat

/-- The 13 default extensions of `FastScanner::new`, verbatim. -/
def defaultExtensions : List String :=
  [".py", ".js", ".ts", ".jsx", ".tsx", ".rs", ".go", ".java", ".php", ".rb",
   ".c", ".cpp", ".cs"]

/-- `FastScanner::new`: default matcher and extensions; the size limit is the
given number of megabytes (default 10) in bytes, as a u64. -/
def FastScanner.new (E : RegexEngine) (max_file_size_mb : Option Nat) :
    FastScanner E :=
  ⟨PatternMatcher.new E, defaultExtensions,
    ((max_file_size_mb.getD 10) * 1024 * 1024) % 2 ^ 64⟩

/-- `FastScanner::add_extension`: push only if not already present. -/
def FastScanner.add_extension (E : RegexEngine) (sc : FastScanner E)
    (ext : String) : FastScanner E :=
  if sc.extensions.contains ext then sc
  else ⟨sc.matcher, sc.extensions ++ [ext], sc.max_file_size⟩

/-- `FastScanner::get_extensions`. -/
def FastScanner.get_extensions (E : RegexEngine) (sc : FastScanner E) :
    List String :=
  sc.extensions

/-- `FastScanner::scan_file_mmap`: open and map the file, require valid
UTF-8, then run the matcher; any failure up to there is an I/O-level error. -/
def scanFileMmap (E : RegexEngine) (fs : FileSystem) (sc : FastScanner E)
    (path : String) : Except String (List Match × FastScanner E) :=
  match fs.mmapRead path with
  | .error e => .error e
  | .ok content =>
      let r := matchContent E sc.matcher content
      .ok (r.1, ⟨r.2, sc.extensions, sc.max_file_size⟩)

/-- `FastScanner::scan_file_normal`: buffered `read_to_string`, then run the
matcher; a read failure becomes `IOError`. -/
def scanFileNormal (E : RegexEngine) (fs : FileSystem) (sc : FastScanner E)
    (path : String) : Except ScanError (List Match × FastScanner E) :=
  match fs.readToString path with
  | .error e => .error (.IOError e)
  | .ok content =>
      let r := matchContent E sc.matcher content
      .ok (r.1, ⟨r.2, sc.extensions, sc.max_file_size⟩)

/-- `FastScanner::scan_file_sync`: existence check, metadata fetch, oversized
short-circuit, then content acquisition (memory map with buffered fallback;
an empty file is zero matches with no read) and matching.  The elapsed
wall-clock milliseconds of a completed scan are abstracted as the
`elapsedMs` argument. -/
def scanFileSync (E : RegexEngine) (fs : FileSystem) (elapsedMs : Nat)
    (sc : FastScanner E) (path : String) :
    Except ScanError (ScanResult × FastScanner E) :=
  if fs.pathExists path = false then
    .error (.NotFound ("File not found: " ++ path))
  else
    match fs.metadataSize path with
    | .error e => .error (.IOError e)
    | .ok file_size =>
        if file_size > sc.max_file_size then
          .ok (⟨path, [], 0, file_size⟩, sc)
        else
          let acquired : Except ScanError (List Match × FastScanner E) :=
            if file_size > 0 then
              match scanFileMmap E fs sc path with
              | .ok r => .ok r
              | .error _ => scanFileNormal E fs sc path
            else .ok ([], sc)
          match acquired with
          | .error e => .error e
          | .ok r => .ok (⟨path, r.1, elapsedMs, file_size⟩, r.2)

/-- The candidate list materialized by `scan_directory`: walkdir entries with
failed entries dropped, restricted to regular files whose extension (when
present) is in the allow-list, mapped to their paths. -/
def candidateFiles (fs : FileSystem) (extensions : List String) (path : String)
    (maxDepth : Option Nat) : List String :=
  ((((fs.walk path maxDepth).filterMap Except.toOption).filter
      (fun e => e.isFile)).filter
      (fun e =>
        match e.extension with
        | some ext => extensions.contains (String.append "." ext)
        | none => false)).map DirEntry.path

/-- One parallel-mode task of `scan_directory`: scan one file with a fresh
default `FastScanner`, keeping only a successful result. -/
def freshScanOutcome (E : RegexEngine) (fs : FileSystem)
    (elapsed : String → Nat) (fp : String) : Option ScanResult :=
  (scanFileSync E fs (elapsed fp) (FastScanner.new E none) fp).toOption.map
    Prod.fst

/-- Loop body of sequential `scan_directory`: fold over the candidate paths
reusing one scanner, appending each successful result and dropping
failures. -/
def seqScanStep (E : RegexEngine) (fs : FileSystem) (elapsed : String → Nat)
    (acc : List ScanResult × FastScanner E) (fp : String) :
    List ScanResult × FastScanner E :=
  match scanFileSync E fs (elapsed fp) acc.2 fp with
  | .ok r => (acc.1 ++ [r.1], r.2)
  | .error _ => acc

/-- `scan_directory` from scanner.rs: root existence check, candidate
materialization against a fresh default scanner's allow-list, then either
parallel fan-out (a fresh default `FastScanner` per file; rayon's collect
preserves input order) when requested and more than one candidate exists, or
a sequential fold reusing a single fresh default scanner; per-file failures
are dropped. -/
def scanDirectory (E : RegexEngine) (fs : FileSystem) (elapsed : String → Nat)
    (path : String) (maxDepth : Option Nat) (par : Option Bool) :
    Except ScanError (List ScanResult) :=
  if fs.pathExists path = false then
    .error (.NotFound ("Directory not found: " ++ path))
  else
    let scanner := FastScanner.new E none
    let files := candidateFiles fs scanner.extensions path maxDepth
    let results :=
      if par.getD true && decide (1 < files.length) then
        files.filterMap (freshScanOutcome E fs elapsed)
      else
        (files.foldl (seqScanStep E fs elapsed) ([], FastScanner.new E none)).1
    .ok results

/-- A ScanResult with its timing erased, for order/timing-insensitive
comparisons. -/
def stripTime (r : ScanResult) : ScanResult :=
  ⟨r.file_path, r.matches, 0, r.file_size⟩

/-- C2: a file whose size exceeds `max_file_size` makes `scan_file_sync`
return successfully with no matches and `scan_time_ms = 0`, leaving the
scanner untouched; and the file's content is never read — the outcome is the
same under any other filesystem that agrees on existence and metadata at the
path but answers reads arbitrarily, and under any elapsed time. -/
theorem oversized_short_circuit (E : RegexEngine) (fs fs2 : FileSystem)
    (t t2 n : Nat) (sc : FastScanner E) (p : String)
    (hex : fs.pathExists p = true) (hmeta : fs.metadataSize p = .ok n)
    (hover : n > sc.max_file_size)
    (hex2 : fs2.pathExists p = true) (hmeta2 : fs2.metadataSize p = .ok n) :
    scanFileSync E fs t sc p = .ok (⟨p, [], 0, n⟩, sc) ∧
      scanFileSync E fs t sc p = scanFileSync E fs2 t2 sc p := by
  have h1 : scanFileSync E fs t sc p = .ok (⟨p, [], 0, n⟩, sc) := by
    rw [scanFileSync, hex]
    simp [hmeta, hover]
  have h2 : scanFileSync E fs2 t2 sc p = .ok (⟨p, [], 0, n⟩, sc) := by
    rw [scanFileSync, hex2]
    simp [hmeta2, hover]
  exact ⟨h1, h1.trans h2.symm⟩

/-- A filesystem whose every path is oversized and whose reads all fail:
exercises the short-circuit. -/
def fsBig : FileSystem :=
  ⟨fun _ => true, fun _ => .ok 10485761, fun _ => .error "never",
   fun _ => .error "never", fun _ _ => []⟩

/-- Witness for C2 at a closed input: an 10485761-byte file against the
default 10485760-byte limit, under two filesystems whose reads disagree. -/
theorem oversized_short_circuit_witness :
    scanFileSync testEngine fsBig 7 (FastScanner.new testEngine none) "a.py" =
        .ok (⟨"a.py", [], 0, 10485761⟩, FastScanner.new testEngine none) ∧
      scanFileSync testEngine fsBig 7 (FastScanner.new testEngine none) "a.py" =
        scanFileSync testEngine
          ⟨fun _ => true, fun _ => .ok 10485761, fun _ => .ok "KEY",
           fun _ => .ok "KEY", fun _ _ => []⟩
          9 (FastScanner.new testEngine none) "a.py" :=
  oversized_short_circuit testEngine fsBig
    ⟨fun _ => true, fun _ => .ok 10485761, fun _ => .ok "KEY",
     fun _ => .ok "KEY", fun _ _ => []⟩
    7 9 10485761 (FastScanner.new testEngine none) "a.py" rfl rfl (by decide)
    rfl rfl

/-- C8: `add_extension` has no effect when the extension is already present
(so adding twice equals adding once), it preserves no-duplicates and
insertion order (the old list is a prefix of the new one), and a fresh
scanner's default allow-list has exactly 13 entries. -/
theorem add_extension_idempotent (E : RegexEngine) (sc : FastScanner E)
    (e : String) (mb : Option Nat) :
    (e ∈ sc.extensions → FastScanner.add_extension E sc e = sc) ∧
      FastScanner.add_extension E (FastScanner.add_extension E sc e) e =
        FastScanner.add_extension E sc e ∧
      (sc.extensions.Nodup →
        (FastScanner.add_extension E sc e).extensions.Nodup ∧
          sc.extensions <+: (FastScanner.add_extension E sc e).extensions) ∧
      (FastScanner.new E mb).extensions.length = 13 := by
  refine ⟨?_, ?_, ?_, rfl⟩
  · intro he
    rw [FastScanner.add_extension, if_pos (List.elem_eq_true_of_mem he)]
  · by_cases hc : sc.extensions.contains e
    · have h1 : FastScanner.add_extension E sc e = sc := by
        rw [FastScanner.add_extension, if_pos hc]
      rw [h1, FastScanner.add_extension, if_pos hc]
    · have h1 : FastScanner.add_extension E sc e =
          ⟨sc.matcher, sc.extensions ++ [e], sc.max_file_size⟩ := by
        rw [FastScanner.add_extension, if_neg hc]
      have hc2 : (sc.extensions ++ [e]).contains e = true := by simp
      rw [h1, FastScanner.add_extension, if_pos hc2]
  · intro hnd
    by_cases hc : sc.extensions.contains e
    · rw [FastScanner.add_extension, if_pos hc]
      exact ⟨hnd, List.prefix_rfl⟩
    · rw [FastScanner.add_extension, if_neg hc]
      have hne : e ∉ sc.extensions := by
        intro he
        exact hc (List.elem_eq_true_of_mem he)
      constructor
      · simp only [List.nodup_append, List.nodup_cons, List.nodup_nil]
        refine ⟨hnd, ⟨by simp, trivial⟩, ?_⟩
        intro a ha hb
        simp only [List.mem_singleton] at hb
        exact hne (hb ▸ ha)
      · exact ⟨[e], rfl⟩

/-- Witness for C8 at a closed input: the default scanner and the extension
".py", which is already in the default allow-list. -/
theorem add_extension_idempotent_witness :
    (".py" ∈ (FastScanner.new testEngine none).extensions →
        FastScanner.add_extension testEngine (FastScanner.new testEngine none) ".py" =
          FastScanner.new testEngine none) ∧
      (".py" ∈ (FastScanner.new testEngine none).extensions) ∧
      ((FastScanner.new testEngine none).extensions.Nodup →
        (FastScanner.add_extension testEngine (FastScanner.new testEngine none)
            ".py").extensions.Nodup ∧
          (FastScanner.new testEngine none).extensions <+:
            (FastScanner.add_extension testEngine (FastScanner.new testEngine none)
              ".py").extensions) ∧
      (FastScanner.new testEngine none).extensions.Nodup ∧
      (FastScanner.new testEngine none).extensions.length = 13 := by
  have h := add_extension_idempotent testEngine (FastScanner.new testEngine none)
    ".py" none
  exact ⟨h.1, by decide, h.2.2.1, by decide, h.2.2.2⟩

/-- C7: single-file scan error handling.  A nonexistent path fails with
`NotFound` (the `Except` carries no partial result); for an existing,
non-oversized, non-empty file, a memory-mapped read failure (which includes
invalid UTF-8) falls back to the buffered read, `IOError` is propagated
exactly when the buffered read also fails; and an empty file yields zero
matches without content acquisition (the reads are unconstrained). -/
theorem scan_file_error_handling (E : RegexEngine) (fs : FileSystem)
    (t n : Nat) (sc : FastScanner E) (p : String) :
    (fs.pathExists p = false →
      scanFileSync E fs t sc p = .error (.NotFound ("File not found: " ++ p))) ∧
      (fs.pathExists p = true → fs.metadataSize p = .ok n →
        ¬ n > sc.max_file_size → 0 < n → ∀ e content,
        fs.mmapRead p = .error e → fs.readToString p = .ok content →
        (scanFileSync E fs t sc p).map Prod.fst =
          .ok ⟨p, (matchContent E sc.matcher content).1, t, n⟩) ∧
      (fs.pathExists p = true → fs.metadataSize p = .ok n →
        ¬ n > sc.max_file_size → 0 < n → ∀ e1 e2,
        fs.mmapRead p = .error e1 → fs.readToString p = .error e2 →
        scanFileSync E fs t sc p = .error (.IOError e2)) ∧
      (fs.pathExists p = true → fs.metadataSize p = .ok n →
        ¬ n > sc.max_file_size → 0 < n → ∀ er,
        scanFileSync E fs t sc p = .error er →
        ∃ e1 e2, fs.mmapRead p = .error e1 ∧ fs.readToString p = .error e2 ∧
          er = .IOError e2) ∧
      (fs.pathExists p = true → fs.metadataSize p = .ok 0 →
        scanFileSync E fs t sc p = .ok (⟨p, [], t, 0⟩, sc)) := by
  refine ⟨?_, ?_, ?_, ?_, ?_⟩
  · intro hex
    rw [scanFileSync, hex]
    simp
  · intro hex hmeta hover hpos e content hmm hrd
    rw [scanFileSync, hex]
    simp only [Bool.true_eq_false, if_neg, hmeta, reduceCtorEq, if_false]
    rw [if_neg hover, if_pos hpos, scanFileMmap, hmm, scanFileNormal, hrd]
    rfl
  · intro hex hmeta hover hpos e1 e2 hmm hrd
    rw [scanFileSync, hex]
    simp only [Bool.true_eq_false, if_neg, hmeta, reduceCtorEq, if_false]
    rw [if_neg hover, if_pos hpos, scanFileMmap, hmm, scanFileNormal, hrd]
  · intro hex hmeta hover hpos er her
    rw [scanFileSync, hex] at her
    simp only [Bool.true_eq_false, if_neg, hmeta, reduceCtorEq, if_false] at her
    rw [if_neg hover, if_pos hpos, scanFileMmap] at her
    cases hmm : fs.mmapRead p with
    | ok content => rw [hmm] at her; simp at her
    | error e1 =>
        rw [hmm, scanFileNormal] at her
        cases hrd : fs.readToString p with
        | ok content => rw [hrd] at her; simp at her
        | error e2 =>
            rw [hrd] at her
            simp only [Except.error.injEq] at her
            exact ⟨e1, e2, rfl, rfl, her.symm⟩
  · intro hex hmeta
    rw [scanFileSync, hex]
    simp [hmeta]

/-- A filesystem with one 7-byte file whose memory map fails but whose
buffered read succeeds. -/
def fsFallback : FileSystem :=
  ⟨fun _ => true, fun _ => .ok 7, fun _ => .error "bad utf8",
   fun _ => .ok "KEY = 1", fun _ _ => []⟩

/-- A filesystem whose memory map and buffered read both fail. -/
def fsBothFail : FileSystem :=
  ⟨fun _ => true, fun _ => .ok 7, fun _ => .error "map", fun _ => .error "io",
   fun _ _ => []⟩

/-- A filesystem with no paths at all. -/
def fsMissing : FileSystem :=
  ⟨fun _ => false, fun _ => .error "m", fun _ => .error "m",
   fun _ => .error "m", fun _ _ => []⟩

/-- A filesystem with one empty file whose reads would both fail if tried. -/
def fsEmptyFile : FileSystem :=
  ⟨fun _ => true, fun _ => .ok 0, fun _ => .error "never",
   fun _ => .error "never", fun _ _ => []⟩

/-- Witness for C7 at closed inputs: the four scenarios on concrete
filesystems. -/
theorem scan_file_error_handling_witness :
    scanFileSync testEngine fsMissing 7 (FastScanner.new testEngine none) "a.py" =
        .error (.NotFound "File not found: a.py") ∧
      (scanFileSync testEngine fsFallback 7 (FastScanner.new testEngine none)
          "a.py").map Prod.fst =
        .ok ⟨"a.py",
          (matchContent testEngine (FastScanner.new testEngine none).matcher
            "KEY = 1").1, 7, 7⟩ ∧
      scanFileSync testEngine fsBothFail 7 (FastScanner.new testEngine none) "a.py" =
        .error (.IOError "io") ∧
      scanFileSync testEngine fsEmptyFile 7 (FastScanner.new testEngine none) "a.py" =
        .ok (⟨"a.py", [], 7, 0⟩, FastScanner.new testEngine none) := by
  refine ⟨?_, ?_, ?_, ?_⟩
  · exact (scan_file_error_handling testEngine fsMissing 7 7
      (FastScanner.new testEngine none) "a.py").1 rfl
  · exact (scan_file_error_handling testEngine fsFallback 7 7
      (FastScanner.new testEngine none) "a.py").2.1 rfl rfl (by decide)
      (by decide) "bad utf8" "KEY = 1" rfl rfl
  · exact (scan_file_error_handling testEngine fsBothFail 7 7
      (FastScanner.new testEngine none) "a.py").2.2.1 rfl rfl (by decide)
      (by decide) "map" "io" rfl rfl
  · exact (scan_file_error_handling testEngine fsEmptyFile 7 7
      (FastScanner.new testEngine none) "a.py").2.2.2.2 rfl rfl

/-- Spec-side description of one file scan: the outcome of `scan_file_sync`
projected to its ScanResult, determined by the registry, the size limit and
the filesystem alone (no cache). -/
def scanFileSpec (E : RegexEngine) (ps : List SecurityPattern) (msz : Nat)
    (fs : FileSystem) (t : Nat) (p : String) : Except ScanError ScanResult :=
  if fs.pathExists p = false then .error (.NotFound ("File not found: " ++ p))
  else
    match fs.metadataSize p with
    | .error e => .error (.IOError e)
    | .ok n =>
        if n > msz then .ok ⟨p, [], 0, n⟩
        else if n > 0 then
          match fs.mmapRead p with
          | .ok content => .ok ⟨p, matchContentSpec E ps content, t, n⟩
          | .error _ =>
              match fs.readToString p with
              | .ok content => .ok ⟨p, matchContentSpec E ps content, t, n⟩
              | .error e => .error (.IOError e)
        else .ok ⟨p, [], t, n⟩

theorem scanFileSync_fst_spec (E : RegexEngine) (fs : FileSystem) (t : Nat)
    (sc : FastScanner E) (p : String)
    (hc : cacheCoherent E sc.matcher.regex_cache) :
    (scanFileSync E fs t sc p).map Prod.fst =
      scanFileSpec E sc.matcher.patterns sc.max_file_size fs t p := by
  rw [scanFileSync, scanFileSpec]
  cases hex : fs.pathExists p with
  | false => rfl
  | true =>
      simp only [Bool.true_eq_false, if_false, reduceCtorEq]
      cases hmeta : fs.metadataSize p with
      | error e => rfl
      | ok n =>
          simp only
          by_cases hov : n > sc.max_file_size
          · rw [if_pos hov, if_pos hov]
            rfl
          · rw [if_neg hov, if_neg hov]
            by_cases hpos : n > 0
            · rw [if_pos hpos, if_pos hpos, scanFileMmap]
              cases hmm : fs.mmapRead p with
              | ok content =>
                  simp only [Except.map]
                  rw [matchContent_fst E sc.matcher content hc]
              | error e =>
                  rw [scanFileNormal]
                  cases hrd : fs.readToString p with
                  | ok content =>
                      simp only [Except.map]
                      rw [matchContent_fst E sc.matcher content hc]
                  | error e2 => rfl
            · rw [if_neg hpos, if_neg hpos]
              rfl

theorem scanFileSync_ok_state (E : RegexEngine) (fs : FileSystem) (t : Nat)
    (sc : FastScanner E) (p : String) (r : ScanResult) (sc2 : FastScanner E)
    (h : scanFileSync E fs t sc p = .ok (r, sc2)) :
    r.file_path = p ∧ sc2.extensions = sc.extensions ∧
      sc2.max_file_size = sc.max_file_size ∧
      sc2.matcher.patterns = sc.matcher.patterns ∧
      (cacheCoherent E sc.matcher.regex_cache →
        cacheCoherent E sc2.matcher.regex_cache) := by
  rw [scanFileSync] at h
  by_cases hex : fs.pathExists p = false
  · rw [if_pos hex] at h
    exact absurd h (by simp)
  · rw [if_neg hex] at h
    cases hmeta : fs.metadataSize p with
    | error e =>
        simp only [hmeta] at h
        exact absurd h (by simp)
    | ok n =>
        simp only [hmeta] at h
        by_cases hov : n > sc.max_file_size
        · rw [if_pos hov] at h
          simp only [Except.ok.injEq, Prod.mk.injEq] at h
          refine ⟨by rw [← h.1], by rw [← h.2], by rw [← h.2], by rw [← h.2], ?_⟩
          intro hc
          rw [← h.2]
          exact hc
        · rw [if_neg hov] at h
          by_cases hpos : n > 0
          · rw [if_pos hpos, scanFileMmap] at h
            cases hmm : fs.mmapRead p with
            | ok content =>
                rw [hmm] at h
                simp only [Except.ok.injEq, Prod.mk.injEq] at h
                refine ⟨by rw [← h.1], by rw [← h.2], by rw [← h.2], ?_, ?_⟩
                · rw [← h.2]
                  exact matchContent_patterns E sc.matcher content
                · intro hc
                  rw [← h.2]
                  exact matchContent_coherent E sc.matcher content hc
            | error e =>
                rw [hmm, scanFileNormal] at h
                cases hrd : fs.readToString p with
                | ok content =>
                    rw [hrd] at h
                    simp only [Except.ok.injEq, Prod.mk.injEq] at h
                    refine ⟨by rw [← h.1], by rw [← h.2], by rw [← h.2], ?_, ?_⟩
                    · rw [← h.2]
                      exact matchContent_patterns E sc.matcher content
                    · intro hc
                      rw [← h.2]
                      exact matchContent_coherent E sc.matcher content hc
                | error e2 =>
                    rw [hrd] at h
                    exact absurd h (by simp)
          · rw [if_neg hpos] at h
            simp only [Except.ok.injEq, Prod.mk.injEq] at h
            refine ⟨by rw [← h.1], by rw [← h.2], by rw [← h.2], by rw [← h.2], ?_⟩
            intro hc
            rw [← h.2]
            exact hc

theorem new_coherent (E : RegexEngine) (mb : Option Nat) :
    cacheCoherent E (FastScanner.new E mb).matcher.regex_cache :=
  cacheCoherent_nil E

theorem seqFold_eq_fresh (E : RegexEngine) (fs : FileSystem)
    (elapsed : String → Nat) (files : List String) (acc : List ScanResult)
    (sc : FastScanner E)
    (hp : sc.matcher.patterns = defaultPatterns)
    (hm : sc.max_file_size = (FastScanner.new E none).max_file_size)
    (hcoh : cacheCoherent E sc.matcher.regex_cache) :
    (files.foldl (seqScanStep E fs elapsed) (acc, sc)).1 =
      acc ++ files.filterMap (freshScanOutcome E fs elapsed) := by
  induction files generalizing acc sc with
  | nil => simp
  | cons fp files ih =>
      rw [List.foldl_cons, List.filterMap_cons]
      have heq : (scanFileSync E fs (elapsed fp) sc fp).map Prod.fst =
          (scanFileSync E fs (elapsed fp) (FastScanner.new E none) fp).map
            Prod.fst := by
        rw [scanFileSync_fst_spec E fs (elapsed fp) sc fp hcoh,
          scanFileSync_fst_spec E fs (elapsed fp) (FastScanner.new E none) fp
            (new_coherent E none), hp, hm]
        rfl
      cases hs : scanFileSync E fs (elapsed fp) sc fp with
      | error e =>
          have hstep : seqScanStep E fs elapsed (acc, sc) fp = (acc, sc) := by
            rw [seqScanStep, hs]
          have hfresh : freshScanOutcome E fs elapsed fp = none := by
            rw [hs] at heq
            rw [freshScanOutcome]
            cases hf : scanFileSync E fs (elapsed fp) (FastScanner.new E none) fp with
            | error e2 => rfl
            | ok r =>
                rw [hf] at heq
                exact absurd heq (by simp [Except.map])
          rw [hstep, hfresh, ih acc sc hp hm hcoh]
      | ok r =>
          obtain ⟨res, sc2⟩ := r
          have hstep : seqScanStep E fs elapsed (acc, sc) fp =
              (acc ++ [res], sc2) := by
            rw [seqScanStep, hs]
          have hfresh : freshScanOutcome E fs elapsed fp = some res := by
            rw [hs] at heq
            rw [freshScanOutcome]
            cases hf : scanFileSync E fs (elapsed fp) (FastScanner.new E none) fp with
            | error e2 =>
                rw [hf] at heq
                exact absurd heq (by simp [Except.map])
            | ok r2 =>
                rw [hf] at heq
                have heq2 : res = r2.1 := by
                  simpa [Except.map] using heq
                simp [Except.toOption, heq2]
          obtain ⟨_, _, hm2, hp2, hcoh2⟩ :=
            scanFileSync_ok_state E fs (elapsed fp) sc fp res sc2 hs
          rw [hstep, hfresh,
            ih (acc ++ [res]) sc2 (hp2.trans hp) (hm2.trans hm) (hcoh2 hcoh)]
          simp

theorem scanDirectory_eq_fresh (E : RegexEngine) (fs : FileSystem)
    (elapsed : String → Nat) (path : String) (d : Option Nat)
    (par : Option Bool) :
    scanDirectory E fs elapsed path d par =
      if fs.pathExists path = false then
        .error (.NotFound ("Directory not found: " ++ path))
      else
        .ok ((candidateFiles fs defaultExtensions path d).filterMap
          (freshScanOutcome E fs elapsed)) := by
  rw [scanDirectory]
  by_cases hex : fs.pathExists path = false
  · rw [if_pos hex, if_pos hex]
  · rw [if_neg hex, if_neg hex]
    simp only
    have hext : (FastScanner.new E none).extensions = defaultExtensions := rfl
    rw [hext]
    by_cases hpar : (par.getD true &&
        decide (1 < (candidateFiles fs defaultExtensions path d).length)) = true
    · rw [if_pos hpar]
    · rw [if_neg hpar]
      rw [seqFold_eq_fresh E fs elapsed
        (candidateFiles fs defaultExtensions path d) [] (FastScanner.new E none)
        rfl rfl (new_coherent E none)]
      simp

/-- C9: `scan_directory` builds its own fresh default-configured scanners:
its outcome is, for every mode, exactly the per-file fan-out with a fresh
`FastScanner::new(None)` per candidate file, candidates filtered against the
default allow-list — so it takes no scanner or matcher argument at all, and
no `add_pattern`/`add_extension` on any user-held instance can influence it.
The fresh instance has the default 10-MB limit, the default 13-entry
allow-list, the default 10-pattern registry and an empty cache. -/
theorem scan_directory_fresh_defaults (E : RegexEngine) (fs : FileSystem)
    (elapsed : String → Nat) (path : String) (d : Option Nat)
    (par : Option Bool) :
    scanDirectory E fs elapsed path d par =
      (if fs.pathExists path = false then
        .error (.NotFound ("Directory not found: " ++ path))
      else
        .ok ((candidateFiles fs defaultExtensions path d).filterMap
          (freshScanOutcome E fs elapsed))) ∧
      (FastScanner.new E none).max_file_size = 10485760 ∧
      (FastScanner.new E none).extensions = defaultExtensions ∧
      (FastScanner.new E none).matcher.patterns = defaultPatterns ∧
      (FastScanner.new E none).matcher.regex_cache = [] ∧
      defaultExtensions.length = 13 ∧ defaultPatterns.length = 10 :=
  ⟨scanDirectory_eq_fresh E fs elapsed path d par, rfl, rfl, rfl, rfl, rfl, rfl⟩

/-- C4: a directory scan fails exactly when the root path is missing, and
then with `NotFound`; when the root exists it always succeeds, and the result
list is the filterMap of per-file outcomes — every per-file failure is
swallowed, the failing file simply omitted while the rest of the scan
completes. -/
theorem directory_notfound_iff (E : RegexEngine) (fs : FileSystem)
    (elapsed : String → Nat) (path : String) (d : Option Nat)
    (par : Option Bool) :
    ((∃ rs, scanDirectory E fs elapsed path d par = .ok rs) ↔
        fs.pathExists path = true) ∧
      (fs.pathExists path = false →
        scanDirectory E fs elapsed path d par =
          .error (.NotFound ("Directory not found: " ++ path))) ∧
      (∀ er, scanDirectory E fs elapsed path d par = .error er →
        er = .NotFound ("Directory not found: " ++ path)) ∧
      (fs.pathExists path = true →
        scanDirectory E fs elapsed path d par =
          .ok ((candidateFiles fs defaultExtensions path d).filterMap
            (freshScanOutcome E fs elapsed))) := by
  rw [scanDirectory_eq_fresh]
  by_cases hex : fs.pathExists path = false
  · rw [if_pos hex]
    refine ⟨?_, fun _ => rfl, ?_, ?_⟩
    · constructor
      · intro h
        obtain ⟨rs, hrs⟩ := h
        exact absurd hrs (by simp)
      · intro h
        rw [h] at hex
        exact absurd hex (by simp)
    · intro er her
      simp only [Except.error.injEq] at her
      rw [her]
    · intro h
      rw [h] at hex
      exact absurd hex (by simp)
  · rw [if_neg hex]
    refine ⟨?_, ?_, ?_, fun _ => rfl⟩
    · constructor
      · intro _
        cases hx : fs.pathExists path with
        | true => rfl
        | false => exact absurd hx hex
      · intro _
        exact ⟨_, rfl⟩
    · intro h
      exact absurd h hex
    · intro er her
      exact absurd her (by simp)

/-- A two-file filesystem for directory-scan witnesses: the walk yields one
Python file with content "KEY = 1", one unreadable Python file (all reads
fail), one non-file entry, one entry with a filtered-out extension, one entry
with no extension, and one failed walk entry. -/
def fsDir : FileSystem :=
  ⟨fun _ => true,
   fun p => if p = "b.py" then .error "io" else .ok 7,
   fun p => if p = "a.py" then .ok "KEY = 1" else .error "io",
   fun p => if p = "a.py" then .ok "KEY = 1" else .error "io",
   fun _ _ =>
     [.ok ⟨"a.py", true, some "py"⟩, .ok ⟨"b.py", true, some "py"⟩,
      .ok ⟨"sub", false, some "py"⟩, .ok ⟨"c.txt", true, some "txt"⟩,
      .ok ⟨"d", true, none⟩, .error "walk"]⟩

/-- Witness for C4 at a closed input: on `fsDir` the scan succeeds with the
readable candidate's result only ("b.py" fails at metadata and is omitted);
on the empty filesystem it fails with `NotFound`. -/
theorem directory_notfound_iff_witness :
    ((∃ rs, scanDirectory testEngine fsDir (fun _ => 3) "root" none none = .ok rs) ↔
        fsDir.pathExists "root" = true) ∧
      (fsMissing.pathExists "root" = false →
        scanDirectory testEngine fsMissing (fun _ => 3) "root" none none =
          .error (.NotFound "Directory not found: root")) ∧
      (fsDir.pathExists "root" = true →
        scanDirectory testEngine fsDir (fun _ => 3) "root" none none =
          .ok ((candidateFiles fsDir defaultExtensions "root" none).filterMap
            (freshScanOutcome testEngine fsDir (fun _ => 3)))) := by
  have h1 := directory_notfound_iff testEngine fsDir (fun _ => 3) "root" none none
  have h2 := directory_notfound_iff testEngine fsMissing (fun _ => 3) "root" none none
  exact ⟨h1.1, fun _ => h2.2.1 rfl, fun _ => h1.2.2.2 rfl⟩

theorem exceptToOption_map {ε α β : Type _} (x : Except ε α) (f : α → β) :
    (x.map f).toOption = x.toOption.map f := by
  cases x <;> rfl

theorem scanFileSpec_stripTime (E : RegexEngine) (ps : List SecurityPattern)
    (msz : Nat) (fs : FileSystem) (t1 t2 : Nat) (p : String) :
    (scanFileSpec E ps msz fs t1 p).map stripTime =
      (scanFileSpec E ps msz fs t2 p).map stripTime := by
  rw [scanFileSpec, scanFileSpec]
  by_cases hex : fs.pathExists p = false
  · rw [if_pos hex, if_pos hex]
  · rw [if_neg hex, if_neg hex]
    cases hmeta : fs.metadataSize p with
    | error e => rfl
    | ok n =>
        simp only
        by_cases hov : n > msz
        · rw [if_pos hov, if_pos hov]
        · rw [if_neg hov, if_neg hov]
          by_cases hpos : n > 0
          · rw [if_pos hpos, if_pos hpos]
            cases hmm : fs.mmapRead p with
            | ok content => simp [Except.map, stripTime]
            | error e =>
                cases hrd : fs.readToString p with
                | ok content => simp [Except.map, stripTime]
                | error e2 => rfl
          · rw [if_neg hpos, if_neg hpos]
            simp [Except.map, stripTime]

theorem exceptMapStrip_toOption {α : Type _}
    (x y : Except ScanError (ScanResult × α))
    (h : (x.map Prod.fst).map stripTime = (y.map Prod.fst).map stripTime) :
    (x.toOption.map Prod.fst).map stripTime =
      (y.toOption.map Prod.fst).map stripTime := by
  cases x <;> cases y <;> simp_all [Except.map, Except.toOption]

theorem freshScanOutcome_stripTime (E : RegexEngine) (fs : FileSystem)
    (el1 el2 : String → Nat) (fp : String) :
    (freshScanOutcome E fs el1 fp).map stripTime =
      (freshScanOutcome E fs el2 fp).map stripTime := by
  rw [freshScanOutcome, freshScanOutcome]
  apply exceptMapStrip_toOption
  rw [scanFileSync_fst_spec E fs (el1 fp) (FastScanner.new E none) fp
      (new_coherent E none),
    scanFileSync_fst_spec E fs (el2 fp) (FastScanner.new E none) fp
      (new_coherent E none)]
  exact scanFileSpec_stripTime E (FastScanner.new E none).matcher.patterns
    (FastScanner.new E none).max_file_size fs (el1 fp) (el2 fp) fp

/-- C6: for a fixed directory snapshot — a fixed filesystem, hence a fixed
candidate list with fixed contents — a parallel run and a sequential run
yield the same multiset of ScanResults once `scan_time_ms` is ignored, even
when the per-file elapsed times of the two runs differ arbitrarily. -/
theorem parallel_sequential_equiv (E : RegexEngine) (fs : FileSystem)
    (elP elS : String → Nat) (path : String) (d : Option Nat) :
    (scanDirectory E fs elP path d (some true)).map
        (fun rs => ((rs.map stripTime : List ScanResult) : Multiset ScanResult)) =
      (scanDirectory E fs elS path d (some false)).map
        (fun rs => ((rs.map stripTime : List ScanResult) : Multiset ScanResult)) := by
  rw [scanDirectory_eq_fresh, scanDirectory_eq_fresh]
  by_cases hex : fs.pathExists path = false
  · rw [if_pos hex, if_pos hex]
  · rw [if_neg hex, if_neg hex]
    have hl : ((candidateFiles fs defaultExtensions path d).filterMap
          (freshScanOutcome E fs elP)).map stripTime =
        ((candidateFiles fs defaultExtensions path d).filterMap
          (freshScanOutcome E fs elS)).map stripTime := by
      rw [List.map_filterMap, List.map_filterMap]
      apply List.filterMap_congr
      intro fp _
      exact freshScanOutcome_stripTime E fs elP elS fp
    simp only [Except.map]
    rw [hl]

theorem candidateFiles_mem (fs : FileSystem) (exts : List String)
    (path : String) (d : Option Nat) (fp : String)
    (h : fp ∈ candidateFiles fs exts path d) :
    ∃ ent : DirEntry, Except.ok ent ∈ fs.walk path d ∧ ent.isFile = true ∧
      (∃ ext, ent.extension = some ext ∧ ("." ++ ext) ∈ exts) ∧
      ent.path = fp := by
  rw [candidateFiles] at h
  rcases List.mem_map.mp h with ⟨ent, hent, hpath⟩
  rcases List.mem_filter.mp hent with ⟨hent2, hext⟩
  rcases List.mem_filter.mp hent2 with ⟨hent3, hfile⟩
  rcases List.mem_filterMap.mp hent3 with ⟨x, hx, hxo⟩
  refine ⟨ent, ?_, hfile, ?_, hpath⟩
  · cases x with
    | ok v =>
        have hv : v = ent := by
          simpa [Except.toOption] using hxo
        exact hv ▸ hx
    | error e =>
        rw [Except.toOption] at hxo
        exact absurd hxo (by simp)
  · cases hext2 : ent.extension with
    | some ext =>
        simp only [hext2] at hext
        exact ⟨ext, rfl, by simpa using hext⟩
    | none =>
        simp only [hext2] at hext
        exact absurd hext (by simp)

theorem scanDirectory_result_mem (E : RegexEngine) (fs : FileSystem)
    (elapsed : String → Nat) (path : String) (d : Option Nat)
    (par : Option Bool) (rs : List ScanResult) (r : ScanResult)
    (hok : scanDirectory E fs elapsed path d par = .ok rs) (hr : r ∈ rs) :
    ∃ ent : DirEntry, Except.ok ent ∈ fs.walk path d ∧ ent.isFile = true ∧
      (∃ ext, ent.extension = some ext ∧ ("." ++ ext) ∈ defaultExtensions) ∧
      ent.path = r.file_path := by
  rw [scanDirectory_eq_fresh] at hok
  by_cases hex : fs.pathExists path = false
  · rw [if_pos hex] at hok
    exact absurd hok (by simp)
  · rw [if_neg hex] at hok
    simp only [Except.ok.injEq] at hok
    rw [← hok] at hr
    rcases List.mem_filterMap.mp hr with ⟨fp, hfp, hout⟩
    have hfp2 : r.file_path = fp := by
      rw [freshScanOutcome] at hout
      cases hscan : scanFileSync E fs (elapsed fp) (FastScanner.new E none) fp with
      | error e =>
          rw [hscan] at hout
          rw [Except.toOption] at hout
          exact absurd hout (by simp)
      | ok pr =>
          obtain ⟨res2, sc2⟩ := pr
          rw [hscan] at hout
          rw [Except.toOption] at hout
          simp at hout
          rw [← hout]
          exact (scanFileSync_ok_state E fs (elapsed fp) (FastScanner.new E none)
            fp res2 sc2 hscan).1
    obtain ⟨ent, h1, h2, h3, h4⟩ :=
      candidateFiles_mem fs defaultExtensions path d fp hfp
    exact ⟨ent, h1, h2, h3, by rw [h4, hfp2]⟩

theorem scanFileSync_ignores_extensions (E : RegexEngine) (fs : FileSystem)
    (t : Nat) (sc : FastScanner E) (xs : List String) (p : String) :
    scanFileSync E fs t ⟨sc.matcher, xs, sc.max_file_size⟩ p =
      (scanFileSync E fs t sc p).map
        (fun q => (q.1, ⟨q.2.matcher, xs, q.2.max_file_size⟩)) := by
  rw [scanFileSync, scanFileSync]
  by_cases hex : fs.pathExists p = false
  · rw [if_pos hex, if_pos hex]
    rfl
  · rw [if_neg hex, if_neg hex]
    cases hmeta : fs.metadataSize p with
    | error e => rfl
    | ok n =>
        simp only [Except.map]
        by_cases hov : n > sc.max_file_size
        · rw [if_pos hov, if_pos hov]
        · rw [if_neg hov, if_neg hov]
          by_cases hpos : n > 0
          · rw [if_pos hpos, if_pos hpos, scanFileMmap, scanFileMmap]
            cases hmm : fs.mmapRead p with
            | ok content => rfl
            | error e =>
                rw [scanFileNormal, scanFileNormal]
                cases hrd : fs.readToString p with
                | ok content => rfl
                | error e2 => rfl
          · rw [if_neg hpos, if_neg hpos]

/-- C5: a directory scan's output never includes a file whose walked entry
lacks an extension or whose extension is outside the scanner's allow-list
(the default list, since `scan_directory` builds its own scanner), while a
direct single-file scan applies no extension filtering at all: replacing the
scanner's allow-list by any other list changes nothing but the allow-list
carried in the returned scanner. -/
theorem extension_filtering (E : RegexEngine) (fs : FileSystem)
    (elapsed : String → Nat) (path : String) (d : Option Nat)
    (par : Option Bool) (rs : List ScanResult) (r : ScanResult)
    (sc : FastScanner E) (xs : List String) (t : Nat) (p : String) :
    (scanDirectory E fs elapsed path d par = .ok rs → r ∈ rs →
      ∃ ent : DirEntry, Except.ok ent ∈ fs.walk path d ∧ ent.isFile = true ∧
        (∃ ext, ent.extension = some ext ∧ ("." ++ ext) ∈ defaultExtensions) ∧
        ent.path = r.file_path) ∧
      scanFileSync E fs t ⟨sc.matcher, xs, sc.max_file_size⟩ p =
        (scanFileSync E fs t sc p).map
          (fun q => (q.1, ⟨q.2.matcher, xs, q.2.max_file_size⟩)) :=
  ⟨scanDirectory_result_mem E fs elapsed path d par rs r,
    scanFileSync_ignores_extensions E fs t sc xs p⟩

example :
    scanDirectory testEngine fsDir (fun _ => 3) "root" none none =
      .ok [⟨"a.py", [], 3, 7⟩] := rfl

/-- Witness for C5 at a closed input: the single result of scanning `fsDir`
(the unreadable candidate "b.py" is dropped) traces back to a walked entry
with an allow-listed extension, and a single-file scan of "a.py" with an
emptied allow-list behaves identically. -/
theorem extension_filtering_witness :
    (∃ ent : DirEntry, Except.ok ent ∈ fsDir.walk "root" none ∧
        ent.isFile = true ∧
        (∃ ext, ent.extension = some ext ∧ ("." ++ ext) ∈ defaultExtensions) ∧
        ent.path = (⟨"a.py", [], 3, 7⟩ : ScanResult).file_path) ∧
      scanFileSync testEngine fsDir 3
          ⟨(FastScanner.new testEngine none).matcher, [],
            (FastScanner.new testEngine none).max_file_size⟩ "a.py" =
        (scanFileSync testEngine fsDir 3 (FastScanner.new testEngine none)
            "a.py").map
          (fun q => (q.1, ⟨q.2.matcher, [], q.2.max_file_size⟩)) := by
  have h := extension_filtering testEngine fsDir (fun _ => 3) "root" none none
    [⟨"a.py", [], 3, 7⟩] ⟨"a.py", [], 3, 7⟩ (FastScanner.new testEngine none)
    [] 3 "a.py"
  exact ⟨h.1 rfl (by decide), h.2⟩

end Knox
